import Mathlib

/-!
Shallow embedding of `src/scripts/post-daily-events.ts`, the single script of
the solidarity-tech event slackbot.  Timestamps are modelled as epoch
milliseconds (the value of `new Date(iso).getTime()` on a valid ISO string),
JavaScript arrays as `List`, nullable strings as `Option String`, and the
stable `Array.prototype.sort` (stable per the ECMAScript specification) as
`List.mergeSort`.  The `Intl.DateTimeFormat` display formatters and the
network are external collaborators and enter as explicit parameters; the
current instant (`Date.now()` / `new Date()`) is likewise passed explicitly.
The display strings of the script are byte-for-byte those of the source file
(several are mojibake of emoji and punctuation; they are reproduced exactly,
using unicode escapes).
-/

/-- A single occurrence of an event (`interface EventSession`).
`start_time` and `end_time` hold the epoch-millisecond value of the ISO
timestamp strings of the source. `location_name` is `string | null`. -/
structure EventSession where
  id : Nat
  start_time : Int
  end_time : Int
  title : String
  location_name : Option String
  location_address : String
  deriving DecidableEq

/-- An event as returned by the solidarity.tech `/v1/events` endpoint
(`interface SolidarityEvent`). `event_page_url` is `string | null`. -/
structure SolidarityEvent where
  id : Nat
  title : String
  event_type : String
  event_sessions : List EventSession
  event_page_url : Option String
  tags : List String
  deriving DecidableEq

/-- A chapter configuration record (`interface ChapterMapping`). -/
structure ChapterMapping where
  chapterId : Nat
  channelId : String
  name : String
  pageUrl : String
  deriving DecidableEq

/-! ## EventFetcher: `fetchAllEvents` (lines 49-83) -/

/-- The fixed page size of `fetchAllEvents` (`const limit = 100`). -/
def limit : Nat := 100

/-- The pagination loop of `fetchAllEvents`.  `pages n` is the `data` array of
the upstream response to `_page=n` (the upstream is an external collaborator);
`page` is the next page to request and `allEvents` the accumulator.  The
source's `while (true)` loop is modelled with explicit fuel: `none` means the
loop did not reach a short page within `fuel` requests.  On termination the
result carries the accumulated events together with the number of the last
page that was requested (the total number of requests issued, since pages are
numbered from 1). -/
def fetchAllEventsGo (pages : Nat → List SolidarityEvent) :
    Nat → Nat → List SolidarityEvent → Option (List SolidarityEvent × Nat)
  | 0, _, _ => none
  | fuel + 1, page, allEvents =>
    let events := pages page
    let allEvents' := allEvents ++ events
    if events.length < limit then some (allEvents', page)
    else fetchAllEventsGo pages fuel (page + 1) allEvents'

/-- `fetchAllEvents`: start at page 1 with an empty accumulator. -/
def fetchAllEvents (pages : Nat → List SolidarityEvent) (fuel : Nat) :
    Option (List SolidarityEvent × Nat) :=
  fetchAllEventsGo pages fuel 1 []

/-- The events of pages `p, p+1, ..., K` concatenated in page order. -/
def pagesConcat (pages : Nat → List SolidarityEvent) (p K : Nat) :
    List SolidarityEvent :=
  if h : p ≤ K then pages p ++ pagesConcat pages (p + 1) K else []
termination_by K + 1 - p
decreasing_by omega

/-! ## WindowFilter: `filterAndSortEvents` (lines 89-113) -/

/-- JavaScript truthiness of `event.event_page_url` (a `string | null`):
truthy iff present and nonempty. -/
def pageUrlTruthy (e : SolidarityEvent) : Bool :=
  match e.event_page_url with
  | none => false
  | some u => !(u == "")

/-- The first filter stage:
`event.event_page_url && !event.tags.includes("slack-exclude")`. -/
def eligibleEvent (e : SolidarityEvent) : Bool :=
  pageUrlTruthy e && !(e.tags.contains "slack-exclude")

/-- The session window test `t >= now && t <= cutoff` where
`t = new Date(s.start_time).getTime()`. -/
def sessionInWindow (now cutoff : Int) (s : EventSession) : Bool :=
  decide (now ≤ s.start_time) && decide (s.start_time ≤ cutoff)

/-- The session comparator
`(a, b) => new Date(a.start_time).getTime() - new Date(b.start_time).getTime()`:
a stable ascending sort under this comparator keeps `a` no later than `b`
iff `a.start_time ≤ b.start_time`. -/
def sessionLE (a b : EventSession) : Bool :=
  decide (a.start_time ≤ b.start_time)

/-- `cutoff = now + daysAhead * 24 * 60 * 60 * 1000` (line 94). -/
def windowCutoff (now daysAhead : Int) : Int :=
  now + daysAhead * 24 * 60 * 60 * 1000

/-- The `.map` stage of `filterAndSortEvents` (lines 98-106): the event with
its sessions reduced to the in-window ones, sorted ascending by start time. -/
def refineEvent (now cutoff : Int) (e : SolidarityEvent) : SolidarityEvent :=
  { e with event_sessions :=
      (e.event_sessions.filter (sessionInWindow now cutoff)).mergeSort sessionLE }

/-- The sort key of the final `.sort` stage: `event.event_sessions[0].start_time`
(applied only to events with at least one session; the empty case is given the
default key 0). -/
def firstSessionStart (e : SolidarityEvent) : Int :=
  match e.event_sessions with
  | [] => 0
  | s :: _ => s.start_time

/-- The event comparator of the final `.sort` stage (lines 108-112). -/
def eventLE (a b : SolidarityEvent) : Bool :=
  decide (firstSessionStart a ≤ firstSessionStart b)

/-- The first three stages of `filterAndSortEvents`
(`.filter` / `.map` / `.filter`, lines 96-107), before the final sort. -/
def preSorted (events : List SolidarityEvent) (daysAhead now : Int) :
    List SolidarityEvent :=
  (((events.filter eligibleEvent).map
      (refineEvent now (windowCutoff now daysAhead))).filter
    (fun e => decide (e.event_sessions.length > 0)))

/-- `filterAndSortEvents` (lines 89-113).  `now` is the value of `Date.now()`
at the start of the call, passed explicitly. -/
def filterAndSortEvents (events : List SolidarityEvent) (daysAhead now : Int) :
    List SolidarityEvent :=
  (preSorted events daysAhead now).mergeSort eventLE

/-! ## Formatting helpers (lines 119-163) -/

/-- The three `Intl.DateTimeFormat` display formatters (`SHORT_WEEKDAY`,
`SHORT_DATE`, `TIME_FMT`), external collaborators: each maps an
epoch-millisecond instant to its display string. -/
structure Formatters where
  shortWeekday : Int → String
  shortDate : Int → String
  timeFmt : Int → String

/-- A JavaScript regex word character (`\w`). -/
def isWordChar (c : Char) : Bool :=
  c.isAlphanum || c == '_'

/-- `startTime.replace(/\s+\w+$/, "")` (line 141): strip one trailing run of
whitespace followed by word characters, when the string ends that way. -/
def stripTrailingZone (s : String) : String :=
  let cs := s.toList.reverse
  let w := cs.takeWhile isWordChar
  let rest := cs.drop w.length
  let sp := rest.takeWhile (fun c => c.isWhitespace)
  if w.isEmpty || sp.isEmpty then s
  else String.mk ((rest.drop sp.length).reverse)

/-- `formatDateRange` (lines 135-143). -/
def formatDateRange (fmt : Formatters) (startDate endDate : Int) : String :=
  let weekday := fmt.shortWeekday startDate
  let date := fmt.shortDate startDate
  let startTime := fmt.timeFmt startDate
  let endTime := fmt.timeFmt endDate
  let startTimeShort := stripTrailingZone startTime
  weekday ++ ", " ++ date ++ " \u00AC\u2211 " ++ startTimeShort ++
    "\u201A\u00C4\u00EC" ++ endTime

/-- `formatHeaderDateRange` (lines 145-148). -/
def formatHeaderDateRange (fmt : Formatters) (now daysAhead : Int) : String :=
  let endMs := now + daysAhead * 24 * 60 * 60 * 1000
  fmt.shortDate now ++ " \u201A\u00C4\u00EC " ++ fmt.shortDate endMs

/-- `eventTypeLabel` (lines 150-163): the closed mapping from known event-type
tags to display labels; anything else maps to the empty string. -/
def eventTypeLabel (eventType : String) : String :=
  if eventType == "in_person" || eventType == "in-person" then
    "\uF8FF\u00FC\u00E8\u00A2 In Person"
  else if eventType == "virtual" || eventType == "online" then
    "\uF8FF\u00FC\u00ED\u00AA Virtual"
  else if eventType == "hybrid" then "\uF8FF\u00FC\u00EE\u00C4 Hybrid"
  else ""

/-! ## MessageBuilder: `buildBlocks` (lines 169-269) -/

/-- Maximum number of displayed events (line 172). -/
def MAX_GROUPS : Nat := 23

/-- A Slack Block Kit block, reduced to the shapes the script emits: a header,
a context line, a text section (each carrying its text), or a divider.  The
`section` block of the source is called `sectionBlock` because `section` is a
reserved word here. -/
inductive Block where
  | header (text : String)
  | context (text : String)
  | sectionBlock (text : String)
  | divider
  deriving DecidableEq

/-- Recognizer for section blocks. -/
def isSectionBlock : Block → Bool
  | .sectionBlock _ => true
  | _ => false

/-- Recognizer for context blocks. -/
def isContextBlock : Block → Bool
  | .context _ => true
  | _ => false

/-- `event.event_type?.toLowerCase() ?? ""` (line 223); `event_type` is a
plain string in the model, so this is just lower-casing. -/
def normalizedEventType (e : SolidarityEvent) : String :=
  e.event_type.toLower

/-- `session.location_address || session.location_name || undefined`
(line 231), with JavaScript truthiness: an empty address falls through to the
name, an absent or empty name yields no location. -/
def sessionLocation (s : EventSession) : Option String :=
  if !(s.location_address == "") then some s.location_address
  else
    match s.location_name with
    | some n => if !(n == "") then some n else none
    | none => none

/-- One session line of an event's section block (lines 227-237).
`normalizedType` is the event's lower-cased type. -/
def sessionLine (fmt : Formatters) (normalizedType : String)
    (s : EventSession) : String :=
  let timeStr := formatDateRange fmt s.start_time s.end_time
  let isVirtual := normalizedType == "virtual" || normalizedType == "online"
  let typeLabel := eventTypeLabel normalizedType
  let line := "\uF8FF\u00FC\u00EC\u00D6 *" ++ timeStr ++ "*"
  let line' :=
    match sessionLocation s with
    | some location =>
      if !isVirtual then
        line ++ "   \uF8FF\u00FC\u00EC\u00E7 _" ++ location ++ "_"
      else line
    | none => line
  if !(typeLabel == "") then line' ++ "   " ++ typeLabel else line'

/-- The interpolation `${event.event_page_url!}` of line 221: the TypeScript
non-null assertion is erased at runtime, and interpolating `null` yields the
string `"null"`. -/
def eventPageUrlText (e : SolidarityEvent) : String :=
  match e.event_page_url with
  | some u => u
  | none => "null"

/-- The text of one event's section block (lines 221-245). -/
def eventSectionText (fmt : Formatters) (e : SolidarityEvent) : String :=
  let titleText := "*<" ++ eventPageUrlText e ++ "|" ++ e.title ++ ">*"
  let sessionLines :=
    e.event_sessions.map (sessionLine fmt (normalizedEventType e))
  titleText ++ "\n" ++ String.intercalate "\n" sessionLines

/-- One event's section block. -/
def eventSectionBlock (fmt : Formatters) (e : SolidarityEvent) : Block :=
  .sectionBlock (eventSectionText fmt e)

/-- The header block text (line 187). -/
def headerBlockText (chapterName : String) : String :=
  "\uF8FF\u00FC\u00EC\u00D6 Upcoming Events \u201A\u00C4\u00EE " ++ chapterName

/-- The subtitle context-block text (line 197). -/
def subtitleBlockText (fmt : Formatters) (chapterUrl : String)
    (daysAhead now : Int) : String :=
  "Next " ++ toString daysAhead ++ " days \u00AC\u2211 " ++
    formatHeaderDateRange fmt now daysAhead ++ " \u00AC\u2211 <" ++
    chapterUrl ++ "|All Events>"

/-- The empty-case section text (line 210). -/
def noEventsText (daysAhead : Int) : String :=
  "No upcoming events in the next " ++ toString daysAhead ++ " days."

/-- The overflow context-block text (line 262). -/
def overflowNoticeText (overflow : Nat) : String :=
  "_+" ++ toString overflow ++ " more event" ++
    (if overflow == 1 then "" else "s") ++ " later this week not shown._"

/-- Removal of the trailing divider (lines 252-254): drop the last block when
the list is nonempty and ends in a divider. -/
def popTrailingDivider (blocks : List Block) : List Block :=
  if blocks.getLast? == some Block.divider then blocks.dropLast else blocks

/-- `buildBlocks` (lines 174-269).  `now` is the instant read by
`new Date()` at line 180, passed explicitly. -/
def buildBlocks (fmt : Formatters) (chapterName chapterUrl : String)
    (events : List SolidarityEvent) (daysAhead now : Int) : List Block :=
  let headerBlock := Block.header (headerBlockText chapterName)
  let subtitleBlock :=
    Block.context (subtitleBlockText fmt chapterUrl daysAhead now)
  if events.length == 0 then
    [headerBlock, subtitleBlock, Block.sectionBlock (noEventsText daysAhead)]
  else
    let overflow :=
      if events.length > MAX_GROUPS then events.length - MAX_GROUPS else 0
    let visibleEvents :=
      if overflow > 0 then events.take MAX_GROUPS else events
    let eventBlocks :=
      (visibleEvents.map (fun e => [eventSectionBlock fmt e, Block.divider])).flatten
    let eventBlocks' := popTrailingDivider eventBlocks
    let eventBlocks'' :=
      if overflow > 0 then
        eventBlocks' ++ [Block.context (overflowNoticeText overflow)]
      else eventBlocks'
    [headerBlock, subtitleBlock] ++ eventBlocks''

/-! ## ChapterRunner / driver (lines 275-346) -/

/-- The fallback text computed by `postChapter` (lines 291-294), a function of
the chapter display name, the filtered events and the window size. -/
def fallbackText (displayName : String) (events : List SolidarityEvent)
    (daysAhead : Int) : String :=
  if events.length > 0 then
    "\uF8FF\u00FC\u00EC\u00D6 Upcoming Events \u201A\u00C4\u00EE " ++
      displayName ++ ": " ++ toString events.length ++
      " event(s) in the next " ++ toString daysAhead ++ " days."
  else
    "\uF8FF\u00FC\u00EC\u00D6 Upcoming Events \u201A\u00C4\u00EE " ++
      displayName ++ ": No upcoming events in the next " ++
      toString daysAhead ++ " days."

/-- The per-chapter failure log line (line 338), which names the chapter. -/
def chapterFailureLog (m : ChapterMapping) : String :=
  "Failed to post events for chapter " ++ m.name ++ ":"

/-- The driver loop of `main` (lines 332-341).  `run m` is the outcome of
`postChapter` on mapping `m` (an external effect: fetch, build, deliver),
`Except.error e` being a thrown error rendered as `e`.  The result is the
list of error-log entries (log line paired with the error) in emission order,
together with the final `anyFailed` flag. -/
def runChapters (run : ChapterMapping → Except String Unit)
    (mappings : List ChapterMapping) : List (String × String) × Bool :=
  mappings.foldl
    (fun st m =>
      match run m with
      | Except.ok _ => st
      | Except.error e => (st.1 ++ [(chapterFailureLog m, e)], true))
    ([], false)

/-- The process outcome of `main` after the loop (lines 343-345), given valid
configuration: exit code 1 when any chapter failed, 0 otherwise. -/
def driverExitCode (run : ChapterMapping → Except String Unit)
    (mappings : List ChapterMapping) : Nat :=
  if (runChapters run mappings).2 then 1 else 0

/-! ## Demo values used by witnesses and counterexamples -/

/-- A featureless event used to populate concrete pages in witnesses. -/
def dummyEvent : SolidarityEvent :=
  { id := 0, title := "", event_type := "", event_sessions := [],
    event_page_url := none, tags := [] }

/-- A concrete upstream whose true last page (page 1) holds exactly 100
events; page 2 is empty. -/
def boundaryPages : Nat → List SolidarityEvent :=
  fun p => if p = 1 then List.replicate 100 dummyEvent else []

/-- Whether `postChapter` failed on mapping `m` (the `catch` branch of the
driver loop is taken). -/
def chapterFailed (run : ChapterMapping → Except String Unit)
    (m : ChapterMapping) : Bool :=
  match run m with
  | Except.error _ => true
  | Except.ok _ => false

/-- A first demo chapter mapping (its run succeeds below). -/
def mappingA : ChapterMapping :=
  { chapterId := 1, channelId := "CA", name := "alpha", pageUrl := "ua" }

/-- A second demo chapter mapping (its run fails below). -/
def mappingB : ChapterMapping :=
  { chapterId := 2, channelId := "CB", name := "beta", pageUrl := "ub" }

/-- A demo per-chapter outcome: the chapter named beta throws. -/
def runDemo : ChapterMapping → Except String Unit :=
  fun m => if m.name == "beta" then Except.error "boom" else Except.ok ()

/-- A session starting inside the demo window. -/
def sampleSession : EventSession :=
  { id := 1, start_time := 1000, end_time := 2000, title := "s",
    location_name := none, location_address := "addr" }

/-- An eligible demo event with one in-window session. -/
def sampleEvent : SolidarityEvent :=
  { id := 1, title := "E", event_type := "virtual",
    event_sessions := [sampleSession], event_page_url := some "http",
    tags := [] }

/-- A demo event whose single in-window session starts at 5 ms. -/
def stableEventA : SolidarityEvent :=
  { id := 1, title := "A", event_type := "",
    event_sessions := [{ id := 1, start_time := 5, end_time := 6, title := "",
                         location_name := none, location_address := "x" }],
    event_page_url := some "u", tags := [] }

/-- A second demo event whose single in-window session also starts at 5 ms. -/
def stableEventB : SolidarityEvent :=
  { id := 2, title := "B", event_type := "",
    event_sessions := [{ id := 2, start_time := 5, end_time := 7, title := "",
                         location_name := none, location_address := "y" }],
    event_page_url := some "v", tags := [] }

/-- A demo instantiation of the external display formatters: the short-date
formatter renders the raw millisecond value, the others render nothing. -/
def fmtDemo : Formatters :=
  { shortWeekday := fun _ => "", shortDate := fun t => toString t,
    timeFmt := fun _ => "" }

/-! ## Theorems -/

lemma pagesConcat_of_le {pages : Nat → List SolidarityEvent} {p K : Nat}
    (h : p ≤ K) :
    pagesConcat pages p K = pages p ++ pagesConcat pages (p + 1) K := by
  rw [pagesConcat]
  simp [h]

lemma pagesConcat_of_gt {pages : Nat → List SolidarityEvent} {p K : Nat}
    (h : K < p) : pagesConcat pages p K = [] := by
  rw [pagesConcat]
  simp [Nat.not_le.mpr h]

lemma fetchAllEventsGo_spec (pages : Nat → List SolidarityEvent) (K : Nat)
    (hshort : (pages K).length < limit) :
    ∀ fuel page acc, page ≤ K → K - page < fuel →
      (∀ i, page ≤ i → i < K → limit ≤ (pages i).length) →
      fetchAllEventsGo pages fuel page acc
        = some (acc ++ pagesConcat pages page K, K) := by
  intro fuel
  induction fuel with
  | zero =>
    intro page acc _ h2 _
    omega
  | succ n ih =>
    intro page acc hle hf hfull
    by_cases hpk : page = K
    · subst hpk
      simp only [fetchAllEventsGo, hshort, if_pos]
      rw [pagesConcat_of_le (Nat.le_refl page), pagesConcat_of_gt (Nat.lt_succ_self page)]
      simp
    · have hlt : page < K := Nat.lt_of_le_of_ne hle hpk
      have hnotshort : ¬ ((pages page).length < limit) :=
        Nat.not_lt.mpr (hfull page (Nat.le_refl page) hlt)
      simp only [fetchAllEventsGo, hnotshort, if_neg, not_false_eq_true]
      rw [ih (page + 1) (acc ++ pages page) hlt (by omega)
            (fun i hi1 hi2 => hfull i (by omega) hi2)]
      rw [pagesConcat_of_le hle, List.append_assoc]

/-- C2: whenever some page `K` is the first to return strictly fewer than
`limit = 100` events (all earlier pages being full or longer), the pagination
loop of `fetchAllEvents` terminates after requesting exactly pages `1..K` and
returns the concatenation of all pages' events in page order.  In the boundary
case where the true last page holds exactly 100 events, the first shorter page
is the following zero-event page, so one further request is issued and the
loop terminates on it (see the witness). -/
theorem fetchAllEvents_terminates (pages : Nat → List SolidarityEvent)
    (K fuel : Nat) (hK : 1 ≤ K) (hfuel : K ≤ fuel)
    (hfull : ∀ i, 1 ≤ i → i < K → limit ≤ (pages i).length)
    (hshort : (pages K).length < limit) :
    fetchAllEvents pages fuel = some (pagesConcat pages 1 K, K) := by
  unfold fetchAllEvents
  have h := fetchAllEventsGo_spec pages K hshort fuel 1 [] hK (by omega) hfull
  simpa using h


theorem fetchAllEvents_terminates_witness :
    fetchAllEvents boundaryPages 2 = some (pagesConcat boundaryPages 1 2, 2) :=
  fetchAllEvents_terminates boundaryPages 2 2 (by decide) (by decide)
    (by
      intro i h1 h2
      have hi : i = 1 := by omega
      subst hi
      simp [boundaryPages, limit])
    (by simp [boundaryPages, limit])


lemma runChapters_foldl (run : ChapterMapping → Except String Unit) :
    ∀ (ms : List ChapterMapping) (acc : List (String × String) × Bool),
      ms.foldl
        (fun st m =>
          match run m with
          | Except.ok _ => st
          | Except.error e => (st.1 ++ [(chapterFailureLog m, e)], true))
        acc
      = (acc.1 ++ ms.filterMap
            (fun m =>
              match run m with
              | Except.error e => some (chapterFailureLog m, e)
              | Except.ok _ => none),
         acc.2 || ms.any (chapterFailed run)) := by
  intro ms
  induction ms with
  | nil => intro acc; simp
  | cons m t ih =>
    intro acc
    simp only [List.foldl_cons, List.filterMap_cons, List.any_cons]
    cases h : run m with
    | ok u =>
      rw [ih]
      simp [chapterFailed, h]
    | error e =>
      rw [ih]
      simp [chapterFailed, h, Bool.true_or]

/-- C6: the driver loop of `main` attempts every configured chapter in input
order; each failing chapter is caught and logged with that chapter's name
(the log is exactly the failing chapters' entries, in input order), failures
do not abort the remaining chapters, and the process exit code is nonzero if
and only if at least one chapter failed. -/
theorem driver_isolates_failures (run : ChapterMapping → Except String Unit)
    (mappings : List ChapterMapping) (hne : mappings ≠ []) :
    (runChapters run mappings).1
        = mappings.filterMap
            (fun m =>
              match run m with
              | Except.error e => some (chapterFailureLog m, e)
              | Except.ok _ => none)
    ∧ ((runChapters run mappings).2 = true
        ↔ ∃ m ∈ mappings, ∃ e, run m = Except.error e)
    ∧ (driverExitCode run mappings ≠ 0
        ↔ ∃ m ∈ mappings, ∃ e, run m = Except.error e) := by
  have hfold := runChapters_foldl run mappings ([], false)
  have hany : mappings.any (chapterFailed run) = true
      ↔ ∃ m ∈ mappings, ∃ e, run m = Except.error e := by
    rw [List.any_eq_true]
    constructor
    · rintro ⟨m, hm, hfail⟩
      refine ⟨m, hm, ?_⟩
      unfold chapterFailed at hfail
      cases h : run m with
      | ok u => rw [h] at hfail; simp at hfail
      | error e => exact ⟨e, rfl⟩
    · rintro ⟨m, hm, e, he⟩
      exact ⟨m, hm, by simp [chapterFailed, he]⟩
  refine ⟨?_, ?_, ?_⟩
  · rw [runChapters, hfold]; simp
  · rw [runChapters, hfold]; simpa using hany
  · rw [driverExitCode, runChapters, hfold]
    simp only [Bool.false_or, List.nil_append]
    constructor
    · intro hcode
      by_cases hb : mappings.any (chapterFailed run) = true
      · exact hany.mp hb
      · simp [hb] at hcode
    · intro hex
      have := hany.mpr hex
      simp [this]


theorem driver_isolates_failures_witness :
    driverExitCode runDemo [mappingA, mappingB] ≠ 0 :=
  (driver_isolates_failures runDemo [mappingA, mappingB]
      (by simp)).2.2.mpr
    ⟨mappingB, by simp, "boom", rfl⟩

lemma refineEvent_event_page_url (now cutoff : Int) (e : SolidarityEvent) :
    (refineEvent now cutoff e).event_page_url = e.event_page_url := rfl

lemma refineEvent_tags (now cutoff : Int) (e : SolidarityEvent) :
    (refineEvent now cutoff e).tags = e.tags := rfl

lemma refineEvent_event_sessions (now cutoff : Int) (e : SolidarityEvent) :
    (refineEvent now cutoff e).event_sessions
      = (e.event_sessions.filter (sessionInWindow now cutoff)).mergeSort sessionLE :=
  rfl

lemma eligibleEvent_iff (e : SolidarityEvent) :
    eligibleEvent e = true
      ↔ ¬(e.event_page_url = none ∨ e.event_page_url = some ""
            ∨ "slack-exclude" ∈ e.tags) := by
  unfold eligibleEvent pageUrlTruthy
  cases h : e.event_page_url with
  | none => simp [h]
  | some u =>
    simp only [h, List.contains, Bool.and_eq_true, Bool.not_eq_true',
      beq_eq_false_iff_ne, ne_eq, List.elem_eq_mem, decide_eq_false_iff_not,
      not_or, Option.some.injEq]
    tauto

lemma sessionInWindow_iff (now cutoff : Int) (s : EventSession) :
    sessionInWindow now cutoff s = true
      ↔ now ≤ s.start_time ∧ s.start_time ≤ cutoff := by
  simp [sessionInWindow]

lemma refineEvent_sessions_pos_iff (now cutoff : Int) (e : SolidarityEvent) :
    (refineEvent now cutoff e).event_sessions.length > 0
      ↔ ∃ s ∈ e.event_sessions, now ≤ s.start_time ∧ s.start_time ≤ cutoff := by
  rw [refineEvent_event_sessions, List.length_mergeSort, gt_iff_lt,
    List.length_pos]
  constructor
  · intro hne
    rcases List.exists_mem_of_ne_nil _ hne with ⟨s, hs⟩
    rw [List.mem_filter] at hs
    exact ⟨s, hs.1, (sessionInWindow_iff now cutoff s).mp hs.2⟩
  · rintro ⟨s, hs, hw⟩
    intro hnil
    rw [List.filter_eq_nil_iff] at hnil
    exact hnil s hs ((sessionInWindow_iff now cutoff s).mpr hw)

lemma mem_preSorted_iff (events : List SolidarityEvent) (daysAhead now : Int)
    (x : SolidarityEvent) :
    x ∈ preSorted events daysAhead now
      ↔ ∃ a, a ∈ events ∧ eligibleEvent a = true
          ∧ refineEvent now (windowCutoff now daysAhead) a = x
          ∧ x.event_sessions.length > 0 := by
  unfold preSorted
  simp only [List.mem_filter, List.mem_map, decide_eq_true_eq]
  constructor
  · rintro ⟨⟨a, ha, heq⟩, hlen⟩
    exact ⟨a, ha.1, ha.2, heq, hlen⟩
  · rintro ⟨a, ha, hel, heq, hlen⟩
    exact ⟨⟨a, ⟨ha, hel⟩, heq⟩, hlen⟩

lemma eventLE_trans :
    ∀ a b c : SolidarityEvent, eventLE a b → eventLE b c → eventLE a c := by
  intro a b c hab hbc
  simp only [eventLE, decide_eq_true_eq] at *
  omega

lemma eventLE_total : ∀ a b : SolidarityEvent, eventLE a b || eventLE b a := by
  intro a b
  simp only [eventLE, Bool.or_eq_true, decide_eq_true_eq]
  omega

lemma sessionLE_trans :
    ∀ a b c : EventSession, sessionLE a b → sessionLE b c → sessionLE a c := by
  intro a b c hab hbc
  simp only [sessionLE, decide_eq_true_eq] at *
  omega

lemma sessionLE_total : ∀ a b : EventSession, sessionLE a b || sessionLE b a := by
  intro a b
  simp only [sessionLE, Bool.or_eq_true, decide_eq_true_eq]
  omega

/-- C1: an input event is absent from the output of `filterAndSortEvents`
(in the form the output would carry it: with its sessions reduced to the
in-window ones) iff it lacks a page URL (absent or empty, per JavaScript
truthiness), carries the `slack-exclude` tag, or has no session starting in
the inclusive window `[now, now + daysAhead*24h]`; and every output event is
such a reduction of an input event, retains exactly its in-window sessions,
and has at least one session. -/
theorem filterAndSortEvents_membership (events : List SolidarityEvent)
    (daysAhead now : Int) (e : SolidarityEvent) (he : e ∈ events) :
    (refineEvent now (windowCutoff now daysAhead) e
        ∈ filterAndSortEvents events daysAhead now
      ↔ ¬(e.event_page_url = none ∨ e.event_page_url = some ""
            ∨ "slack-exclude" ∈ e.tags
            ∨ ∀ s ∈ e.event_sessions,
                ¬(now ≤ s.start_time ∧ s.start_time ≤ windowCutoff now daysAhead)))
    ∧ ∀ e' ∈ filterAndSortEvents events daysAhead now,
        ∃ a ∈ events,
          e' = refineEvent now (windowCutoff now daysAhead) a
          ∧ (∀ s, s ∈ e'.event_sessions
              ↔ s ∈ a.event_sessions
                ∧ now ≤ s.start_time ∧ s.start_time ≤ windowCutoff now daysAhead)
          ∧ e'.event_sessions ≠ [] := by
  constructor
  · rw [filterAndSortEvents, List.mem_mergeSort, mem_preSorted_iff]
    constructor
    · rintro ⟨a, _, hel, heq, hlen⟩
      have hurl := congrArg SolidarityEvent.event_page_url heq
      have htags := congrArg SolidarityEvent.tags heq
      rw [refineEvent_event_page_url, refineEvent_event_page_url] at hurl
      rw [refineEvent_tags, refineEvent_tags] at htags
      have hele : eligibleEvent e = true := by
        rw [eligibleEvent_iff]
        have := (eligibleEvent_iff a).mp hel
        rw [hurl, htags] at this
        exact this
      have hele' := (eligibleEvent_iff e).mp hele
      rw [not_or, not_or] at hele'
      have hwin := (refineEvent_sessions_pos_iff now
        (windowCutoff now daysAhead) e).mp hlen
      rw [not_or, not_or, not_or]
      refine ⟨hele'.1, hele'.2.1, hele'.2.2, ?_⟩
      intro hall
      rcases hwin with ⟨s, hs, hw⟩
      exact hall s hs hw
    · intro h
      rw [not_or, not_or, not_or] at h
      obtain ⟨h1, h2, h3, h4⟩ := h
      have hel : eligibleEvent e = true :=
        (eligibleEvent_iff e).mpr (by rw [not_or, not_or]; exact ⟨h1, h2, h3⟩)
      have hwin : ∃ s ∈ e.event_sessions,
          now ≤ s.start_time ∧ s.start_time ≤ windowCutoff now daysAhead := by
        by_contra hcon
        exact h4 (fun s hs hw => hcon ⟨s, hs, hw⟩)
      exact ⟨e, he, hel, rfl,
        (refineEvent_sessions_pos_iff now (windowCutoff now daysAhead) e).mpr hwin⟩
  · intro e' he'
    rw [filterAndSortEvents, List.mem_mergeSort, mem_preSorted_iff] at he'
    obtain ⟨a, ha, _, heq, hlen⟩ := he'
    refine ⟨a, ha, heq.symm, ?_, ?_⟩
    · intro s
      rw [← heq, refineEvent_event_sessions, List.mem_mergeSort, List.mem_filter,
        sessionInWindow_iff]
    · exact List.length_pos.mp hlen


theorem filterAndSortEvents_membership_witness :
    refineEvent 0 (windowCutoff 0 7) sampleEvent
      ∈ filterAndSortEvents [sampleEvent] 7 0 :=
  (filterAndSortEvents_membership [sampleEvent] 7 0 sampleEvent
      (by simp)).1.mpr (by decide)

/-- C5: the output of `filterAndSortEvents` is sorted ascending by the first
remaining session's start time; within each output event the kept sessions
are sorted ascending by start time; and the sort is stable: any subsequence
of the pre-sort stage (which lists surviving events in their original input
order) whose members share one first-session start time is still a
subsequence of the output. -/
theorem filterAndSortEvents_sorted_stable (events : List SolidarityEvent)
    (daysAhead now : Int) :
    (filterAndSortEvents events daysAhead now).Pairwise
        (fun a b => firstSessionStart a ≤ firstSessionStart b)
    ∧ (∀ e ∈ filterAndSortEvents events daysAhead now,
        e.event_sessions.Pairwise (fun a b => a.start_time ≤ b.start_time))
    ∧ ∀ c : List SolidarityEvent,
        c.Sublist (preSorted events daysAhead now) →
        (∀ a ∈ c, ∀ b ∈ c, firstSessionStart a = firstSessionStart b) →
        c.Sublist (filterAndSortEvents events daysAhead now) := by
  refine ⟨?_, ?_, ?_⟩
  · have h := List.sorted_mergeSort eventLE_trans eventLE_total
      (preSorted events daysAhead now)
    rw [filterAndSortEvents]
    exact h.imp (fun hab => by simpa [eventLE] using hab)
  · intro e' he'
    rw [filterAndSortEvents, List.mem_mergeSort, mem_preSorted_iff] at he'
    obtain ⟨a, _, _, heq, _⟩ := he'
    rw [← heq, refineEvent_event_sessions]
    have h := List.sorted_mergeSort sessionLE_trans sessionLE_total
      (a.event_sessions.filter (sessionInWindow now (windowCutoff now daysAhead)))
    exact h.imp (fun hab => by simpa [sessionLE] using hab)
  · intro c hsub hkeys
    rw [filterAndSortEvents]
    refine List.sublist_mergeSort eventLE_trans eventLE_total ?_ hsub
    refine List.pairwise_of_forall_mem_list ?_
    intro a ha b hb
    simp [eventLE, hkeys a ha b hb]


theorem filterAndSortEvents_sorted_stable_witness :
    [refineEvent 0 (windowCutoff 0 1) stableEventA].Sublist
      (filterAndSortEvents [stableEventA, stableEventB] 1 0) :=
  (filterAndSortEvents_sorted_stable [stableEventA, stableEventB] 1 0).2.2
    _
    (by
      rw [List.singleton_sublist, mem_preSorted_iff]
      exact ⟨stableEventA, by simp, by decide, rfl,
        (refineEvent_sessions_pos_iff 0 (windowCutoff 0 1) stableEventA).mpr
          (by decide)⟩)
    (by
      intro a ha b hb
      simp only [List.mem_singleton] at ha hb
      rw [ha, hb])

lemma blockPairs_getLast (l : List Block) (hl : l ≠ []) :
    ((l.map (fun b => [b, Block.divider])).flatten).getLast? = some Block.divider := by
  induction l with
  | nil => exact absurd rfl hl
  | cons a t ih =>
    cases t with
    | nil => simp
    | cons b t' =>
      have h := ih (by simp)
      simp only [List.map_cons, List.flatten_cons] at h ⊢
      rw [List.getLast?_append, List.getLast?_append] at *
      rw [h]
      rfl

lemma blockPairs_dropLast (l : List Block) :
    ((l.map (fun b => [b, Block.divider])).flatten).dropLast
      = List.intersperse Block.divider l := by
  induction l with
  | nil => rfl
  | cons a t ih =>
    cases t with
    | nil => simp [List.dropLast]
    | cons b t' =>
      have hne : (((b :: t').map (fun x => [x, Block.divider])).flatten) ≠ [] := by
        simp
      show (([a, Block.divider])
          ++ ((b :: t').map (fun x => [x, Block.divider])).flatten).dropLast = _
      rw [List.dropLast_append_of_ne_nil _ hne, ih, List.intersperse_cons₂]
      rfl

lemma filter_intersperse_div (p : Block → Bool) (hd : p Block.divider = false)
    (l : List Block) :
    (List.intersperse Block.divider l).filter p = l.filter p := by
  induction l with
  | nil => rfl
  | cons a t ih =>
    cases t with
    | nil => rfl
    | cons b t' =>
      rw [List.intersperse_cons₂]
      simp [List.filter_cons, hd, ih]

lemma length_intersperse_div (l : List Block) :
    (List.intersperse Block.divider l).length = 2 * l.length - 1 := by
  induction l with
  | nil => rfl
  | cons a t ih =>
    cases t with
    | nil => rfl
    | cons b t' =>
      rw [List.intersperse_cons₂]
      simp only [List.length_cons] at ih ⊢
      omega

lemma getLast?_intersperse_div (l : List Block) :
    (List.intersperse Block.divider l).getLast? = l.getLast? := by
  induction l with
  | nil => rfl
  | cons a t ih =>
    cases t with
    | nil => rfl
    | cons b t' =>
      rw [List.intersperse_cons₂]
      rw [List.getLast?_cons_cons, List.getLast?_cons_cons]
      rw [← ih]
      cases t' with
      | nil => rfl
      | cons c t'' => rw [List.intersperse_cons₂, List.getLast?_cons_cons]

lemma eventPairs_pop (fmt : Formatters) (l : List SolidarityEvent) (hl : l ≠ []) :
    popTrailingDivider
        ((l.map (fun e => [eventSectionBlock fmt e, Block.divider])).flatten)
      = List.intersperse Block.divider (l.map (eventSectionBlock fmt)) := by
  have hmap : l.map (fun e => [eventSectionBlock fmt e, Block.divider])
      = (l.map (eventSectionBlock fmt)).map (fun b => [b, Block.divider]) := by
    rw [List.map_map]
    rfl
  rw [hmap]
  unfold popTrailingDivider
  rw [blockPairs_getLast (l.map (eventSectionBlock fmt)) (by simpa using hl)]
  simp only [beq_self_eq_true, if_true]
  exact blockPairs_dropLast _

lemma buildBlocks_nonempty_eq (fmt : Formatters) (chapterName chapterUrl : String)
    (events : List SolidarityEvent) (daysAhead now : Int) (h : events ≠ []) :
    buildBlocks fmt chapterName chapterUrl events daysAhead now
      = [Block.header (headerBlockText chapterName),
         Block.context (subtitleBlockText fmt chapterUrl daysAhead now)]
        ++ List.intersperse Block.divider
            ((if events.length > MAX_GROUPS then events.take MAX_GROUPS
              else events).map (eventSectionBlock fmt))
        ++ (if events.length > MAX_GROUPS then
              [Block.context (overflowNoticeText (events.length - MAX_GROUPS))]
            else []) := by
  have hlen : 0 < events.length := List.length_pos.mpr h
  have hcond : ¬((events.length == 0) = true) := by
    simp only [beq_iff_eq]
    omega
  by_cases hover : events.length > MAX_GROUPS
  · have hvne : events.take MAX_GROUPS ≠ [] := by
      intro hc
      have := congrArg List.length hc
      simp only [List.length_take, List.length_nil] at this
      have hm : MAX_GROUPS = 23 := rfl
      omega
    simp only [buildBlocks, if_neg hcond, if_pos hover]
    have h2 : events.length - MAX_GROUPS > 0 := by omega
    rw [if_pos h2, if_pos h2]
    rw [eventPairs_pop fmt _ hvne, List.append_assoc]
  · simp only [buildBlocks, if_neg hcond, if_neg hover]
    have h3 : ¬((0 : Nat) > 0) := by omega
    rw [if_neg h3, if_neg h3]
    rw [eventPairs_pop fmt _ h, List.append_nil]


lemma filter_sections_intersperse (fmt : Formatters) (l : List SolidarityEvent) :
    (List.intersperse Block.divider (l.map (eventSectionBlock fmt))).filter
        isSectionBlock
      = l.map (eventSectionBlock fmt) := by
  rw [filter_intersperse_div isSectionBlock rfl]
  rw [List.filter_eq_self]
  intro b hb
  obtain ⟨e, -, rfl⟩ := List.mem_map.mp hb
  rfl

lemma filter_context_intersperse (fmt : Formatters) (l : List SolidarityEvent) :
    (List.intersperse Block.divider (l.map (eventSectionBlock fmt))).filter
        isContextBlock
      = [] := by
  rw [filter_intersperse_div isContextBlock rfl]
  rw [List.filter_eq_nil_iff]
  intro b hb
  obtain ⟨e, -, rfl⟩ := List.mem_map.mp hb
  simp [eventSectionBlock, isContextBlock]

/-- C3: `buildBlocks` always stays within the 50-block platform ceiling; with
at most `MAX_GROUPS = 23` filtered events the document carries a single
context block (the subtitle — no overflow notice) and one section per event
(every event is rendered; with zero events, the single section is the
no-events text); with more than 23 events exactly the first 23 are rendered,
a second context block is appended as the final block carrying
`overflow = count - 23`, worded in the singular exactly when the overflow
is 1. -/
theorem buildBlocks_bounded (fmt : Formatters) (chapterName chapterUrl : String)
    (events : List SolidarityEvent) (daysAhead now : Int) :
    (buildBlocks fmt chapterName chapterUrl events daysAhead now).length ≤ 50
    ∧ (events.length ≤ MAX_GROUPS →
        (buildBlocks fmt chapterName chapterUrl events daysAhead now).countP
            isContextBlock = 1
        ∧ (buildBlocks fmt chapterName chapterUrl events daysAhead now).filter
              isSectionBlock
            = (if events.length = 0 then
                 [Block.sectionBlock (noEventsText daysAhead)]
               else events.map (eventSectionBlock fmt)))
    ∧ (events.length > MAX_GROUPS →
        (buildBlocks fmt chapterName chapterUrl events daysAhead now).countP
            isContextBlock = 2
        ∧ (buildBlocks fmt chapterName chapterUrl events daysAhead now).filter
              isSectionBlock
            = (events.take MAX_GROUPS).map (eventSectionBlock fmt)
        ∧ (buildBlocks fmt chapterName chapterUrl events daysAhead now).getLast?
            = some (Block.context
                (overflowNoticeText (events.length - MAX_GROUPS))))
    ∧ overflowNoticeText 1 = "_+1 more event later this week not shown._"
    ∧ (∀ k, k ≠ 1 →
        overflowNoticeText k
          = "_+" ++ toString k ++ " more events later this week not shown._") := by
  have hm : MAX_GROUPS = 23 := rfl
  have hword1 : overflowNoticeText 1
      = "_+1 more event later this week not shown._" := rfl
  have hwordk : ∀ k, k ≠ 1 →
      overflowNoticeText k
        = "_+" ++ toString k ++ " more events later this week not shown._" := by
    intro k hk
    unfold overflowNoticeText
    have hkb : (k == 1) = false := by simp [hk]
    rw [hkb]
    simp only [Bool.false_eq_true, if_false, String.append_assoc]
    have htail : (" more event" : String)
        ++ ("s" ++ " later this week not shown._")
        = " more events later this week not shown._" := rfl
    rw [htail]
  rcases eq_or_ne events [] with he | he
  · subst he
    refine ⟨by simp [buildBlocks], fun _ => ⟨?_, ?_⟩, fun hover => ?_, hword1, hwordk⟩
    · simp [buildBlocks, List.countP_cons, isContextBlock]
    · simp [buildBlocks, List.filter_cons, isSectionBlock, isContextBlock]
    · simp at hover
  · have hB := buildBlocks_nonempty_eq fmt chapterName chapterUrl events
      daysAhead now he
    have hA : (([Block.header (headerBlockText chapterName),
        Block.context (subtitleBlockText fmt chapterUrl daysAhead now)] :
          List Block)).filter isSectionBlock = [] := rfl
    have hActx : (([Block.header (headerBlockText chapterName),
        Block.context (subtitleBlockText fmt chapterUrl daysAhead now)] :
          List Block)).filter isContextBlock
        = [Block.context (subtitleBlockText fmt chapterUrl daysAhead now)] := rfl
    by_cases hover : events.length > MAX_GROUPS
    · refine ⟨?_, fun hle => absurd hover (by omega), fun _ => ⟨?_, ?_, ?_⟩,
        hword1, hwordk⟩
      · rw [hB, if_pos hover, if_pos hover]
        simp only [List.length_append, length_intersperse_div, List.length_map,
          List.length_take, List.length_cons, List.length_nil]
        omega
      · rw [hB, if_pos hover, if_pos hover, List.countP_eq_length_filter,
          List.filter_append, List.filter_append, hActx,
          filter_context_intersperse]
        simp [isContextBlock]
      · rw [hB, if_pos hover, if_pos hover, List.filter_append,
          List.filter_append, hA, filter_sections_intersperse]
        simp [isSectionBlock]
      · rw [hB, if_pos hover, if_pos hover]
        exact List.getLast?_concat _
    · have hle : events.length ≤ MAX_GROUPS := by omega
      have hne0 : ¬(events.length = 0) := by
        intro hc
        exact he (List.length_eq_zero.mp hc)
      refine ⟨?_, fun _ => ⟨?_, ?_⟩, fun hgt => absurd hgt hover, hword1, hwordk⟩
      · rw [hB, if_neg hover, if_neg hover, List.append_nil]
        simp only [List.length_append, length_intersperse_div, List.length_map,
          List.length_cons, List.length_nil]
        omega
      · rw [hB, if_neg hover, if_neg hover, List.append_nil,
          List.countP_eq_length_filter, List.filter_append, hActx,
          filter_context_intersperse]
        simp
      · rw [hB, if_neg hover, if_neg hover, List.append_nil, List.filter_append,
          hA, filter_sections_intersperse, if_neg hne0]
        simp

theorem buildBlocks_bounded_witness :
    (buildBlocks fmtDemo "A" "u" [] 7 0).length ≤ 50 :=
  (buildBlocks_bounded fmtDemo "A" "u" [] 7 0).1

/-- C7: with an empty filtered event list the document is exactly the three
blocks header, subtitle context and a section saying there are no upcoming
events in the next N days, and the fallback text contains the phrase
No upcoming events. -/
theorem buildBlocks_empty_case (fmt : Formatters) (chapterName chapterUrl : String)
    (daysAhead now : Int) :
    buildBlocks fmt chapterName chapterUrl [] daysAhead now
      = [Block.header (headerBlockText chapterName),
         Block.context (subtitleBlockText fmt chapterUrl daysAhead now),
         Block.sectionBlock (noEventsText daysAhead)]
    ∧ (buildBlocks fmt chapterName chapterUrl [] daysAhead now).length = 3
    ∧ ∃ a b, fallbackText chapterName [] daysAhead
        = a ++ "No upcoming events" ++ b := by
  refine ⟨rfl, rfl, ?_⟩
  refine ⟨"\uF8FF\u00FC\u00EC\u00D6 Upcoming Events \u201A\u00C4\u00EE "
      ++ chapterName ++ ": ",
    " in the next " ++ toString daysAhead ++ " days.", ?_⟩
  unfold fallbackText
  rw [if_neg (by simp)]
  have hmid : (": No upcoming events in the next " : String)
      = ": " ++ ("No upcoming events" ++ " in the next ") := rfl
  rw [hmid]
  simp only [String.append_assoc]

/-- C8: in every non-empty document, the event sections appear separated by
single dividers (the trailing divider having been removed), so a divider is
never the final block: without overflow the final block is the last visible
event's section, with overflow it is the overflow notice. -/
theorem buildBlocks_no_trailing_divider (fmt : Formatters)
    (chapterName chapterUrl : String) (events : List SolidarityEvent)
    (daysAhead now : Int) (h : events ≠ []) :
    buildBlocks fmt chapterName chapterUrl events daysAhead now
      = [Block.header (headerBlockText chapterName),
         Block.context (subtitleBlockText fmt chapterUrl daysAhead now)]
        ++ List.intersperse Block.divider
            ((if events.length > MAX_GROUPS then events.take MAX_GROUPS
              else events).map (eventSectionBlock fmt))
        ++ (if events.length > MAX_GROUPS then
              [Block.context (overflowNoticeText (events.length - MAX_GROUPS))]
            else [])
    ∧ (buildBlocks fmt chapterName chapterUrl events daysAhead now).getLast?
        ≠ some Block.divider
    ∧ (events.length ≤ MAX_GROUPS →
        (buildBlocks fmt chapterName chapterUrl events daysAhead now).getLast?
          = events.getLast?.map (eventSectionBlock fmt))
    ∧ (events.length > MAX_GROUPS →
        (buildBlocks fmt chapterName chapterUrl events daysAhead now).getLast?
          = some (Block.context
              (overflowNoticeText (events.length - MAX_GROUPS)))) := by
  have hB := buildBlocks_nonempty_eq fmt chapterName chapterUrl events
    daysAhead now h
  obtain ⟨e, he⟩ : ∃ x, events.getLast? = some x := by
    have := List.getLast?_isSome.mpr h
    exact Option.isSome_iff_exists.mp this
  have hgt : events.length > MAX_GROUPS →
      (buildBlocks fmt chapterName chapterUrl events daysAhead now).getLast?
        = some (Block.context (overflowNoticeText (events.length - MAX_GROUPS))) := by
    intro hover
    rw [hB, if_pos hover, if_pos hover]
    exact List.getLast?_concat _
  have hle : events.length ≤ MAX_GROUPS →
      (buildBlocks fmt chapterName chapterUrl events daysAhead now).getLast?
        = events.getLast?.map (eventSectionBlock fmt) := by
    intro hlen
    have hover : ¬(events.length > MAX_GROUPS) := by omega
    rw [hB, if_neg hover, if_neg hover, List.append_nil, List.getLast?_append,
      getLast?_intersperse_div, List.getLast?_map, he]
    rfl
  refine ⟨hB, ?_, hle, hgt⟩
  by_cases hover : events.length > MAX_GROUPS
  · rw [hgt hover]
    simp
  · rw [hle (by omega), he]
    simp [eventSectionBlock]

theorem buildBlocks_no_trailing_divider_witness :
    (buildBlocks fmtDemo "A" "u" [sampleEvent] 7 0).getLast?
      ≠ some Block.divider :=
  (buildBlocks_no_trailing_divider fmtDemo "A" "u" [sampleEvent] 7 0
    (by simp)).2.1

/-- C9: a rendered session line is the time segment, then a location segment
exactly when the (lower-cased) event type is not virtual or online and a
location is present (the street address preferred, else a nonempty venue
name), then a type label exactly when the normalized event type is one of the
five known tags; unrecognized types yield no label. -/
theorem sessionLine_spec (fmt : Formatters) (e : SolidarityEvent)
    (s : EventSession) :
    (sessionLine fmt (normalizedEventType e) s
      = "\uF8FF\u00FC\u00EC\u00D6 *"
          ++ formatDateRange fmt s.start_time s.end_time ++ "*"
        ++ (match sessionLocation s with
            | some location =>
              if normalizedEventType e == "virtual"
                  || normalizedEventType e == "online" then ""
              else "   \uF8FF\u00FC\u00EC\u00E7 _" ++ location ++ "_"
            | none => "")
        ++ (if eventTypeLabel (normalizedEventType e) == "" then ""
            else "   " ++ eventTypeLabel (normalizedEventType e)))
    ∧ (s.location_address ≠ "" → sessionLocation s = some s.location_address)
    ∧ (sessionLocation s = none ↔
        (s.location_address = "" ∧ ∀ n, s.location_name = some n → n = ""))
    ∧ (eventTypeLabel (normalizedEventType e) ≠ ""
        ↔ (normalizedEventType e = "in_person"
            ∨ normalizedEventType e = "in-person"
            ∨ normalizedEventType e = "virtual"
            ∨ normalizedEventType e = "online"
            ∨ normalizedEventType e = "hybrid")) := by
  refine ⟨?_, ?_, ?_, ?_⟩
  · have mstar : ∀ x : String, "*" ++ ("   " ++ x) = "*   " ++ x := by
      intro x
      rw [← String.append_assoc]
      rfl
    have mpin : ∀ x : String,
        "*" ++ ("   \uF8FF\u00FC\u00EC\u00E7 _" ++ x)
          = "*   \uF8FF\u00FC\u00EC\u00E7 _" ++ x := by
      intro x
      rw [← String.append_assoc]
      rfl
    have munder : ∀ x : String, "_" ++ ("   " ++ x) = "_   " ++ x := by
      intro x
      rw [← String.append_assoc]
      rfl
    cases hloc : sessionLocation s with
    | none =>
      simp only [sessionLine, hloc]
      by_cases hlab : eventTypeLabel (normalizedEventType e) = ""
      · simp [hlab, String.append_empty]
      · have hlabb : (eventTypeLabel (normalizedEventType e) == "") = false := by
          simp [hlab]
        simp [hlabb, String.append_assoc, String.append_empty, mstar]
    | some loc =>
      simp only [sessionLine, hloc]
      by_cases hvirt : (normalizedEventType e == "virtual"
          || normalizedEventType e == "online") = true
      · by_cases hlab : eventTypeLabel (normalizedEventType e) = ""
        · simp [hvirt, hlab, String.append_empty]
        · have hlabb : (eventTypeLabel (normalizedEventType e) == "") = false := by
            simp [hlab]
          simp [hvirt, hlabb, String.append_assoc, String.append_empty, mstar]
      · have hvirtb : (normalizedEventType e == "virtual"
            || normalizedEventType e == "online") = false := by
          simpa using hvirt
        by_cases hlab : eventTypeLabel (normalizedEventType e) = ""
        · simp [hvirtb, hlab, String.append_empty, String.append_assoc, mpin]
        · have hlabb : (eventTypeLabel (normalizedEventType e) == "") = false := by
            simp [hlab]
          simp [hvirtb, hlabb, String.append_assoc, String.append_empty,
            mpin, munder]
  · intro haddr
    simp [sessionLocation, haddr]
  · unfold sessionLocation
    by_cases haddr : s.location_address = ""
    · cases hname : s.location_name with
      | none => simp [haddr, hname]
      | some n =>
        by_cases hn : n = ""
        · simp [haddr, hname, hn]
        · simp [haddr, hname, hn]
    · simp [haddr]
  · unfold eventTypeLabel
    split_ifs with h1 h2 h3
    · simp only [Bool.or_eq_true, beq_iff_eq] at h1
      have hne : ("\uF8FF\u00FC\u00E8\u00A2 In Person" : String) ≠ "" := by
        decide
      tauto
    · simp only [Bool.or_eq_true, beq_iff_eq] at h2
      have hne : ("\uF8FF\u00FC\u00ED\u00AA Virtual" : String) ≠ "" := by
        decide
      tauto
    · rw [beq_iff_eq] at h3
      have hne : ("\uF8FF\u00FC\u00EE\u00C4 Hybrid" : String) ≠ "" := by
        decide
      tauto
    · simp only [Bool.or_eq_true, beq_iff_eq, not_or] at h1 h2
      rw [beq_iff_eq] at h3
      constructor
      · intro hc
        exact absurd rfl hc
      · intro hc
        tauto

theorem sessionLine_spec_witness :
    sessionLocation sampleSession = some sampleSession.location_address :=
  (sessionLine_spec fmtDemo sampleEvent sampleSession).2.1 (by decide)

/-- C4 counterexample: `buildBlocks` reads the clock (`new Date()` at line
180) and embeds the formatted date range in the subtitle block, so two
invocations with identical chapter name, chapter URL, filtered events and
window size but different invocation instants yield different documents (here
the two instants are one day apart, with a faithful short-date formatter that
distinguishes the two days). -/
theorem buildBlocks_depends_on_clock :
    buildBlocks fmtDemo "A" "u" [] 7 0
      ≠ buildBlocks fmtDemo "A" "u" [] 7 86400000 := by
  decide

/-- C4, amended: a `buildBlocks` document is fully determined by the four
spec-level inputs together with the display formatters and the invocation
instant; there is no further hidden state. -/
theorem buildBlocks_deterministic (fmt fmt' : Formatters)
    (chapterName chapterName' chapterUrl chapterUrl' : String)
    (events events' : List SolidarityEvent) (daysAhead daysAhead' now now' : Int)
    (h1 : fmt = fmt') (h2 : chapterName = chapterName')
    (h3 : chapterUrl = chapterUrl') (h4 : events = events')
    (h5 : daysAhead = daysAhead') (h6 : now = now') :
    buildBlocks fmt chapterName chapterUrl events daysAhead now
      = buildBlocks fmt' chapterName' chapterUrl' events' daysAhead' now' := by
  subst h1 h2 h3 h4 h5 h6
  rfl

theorem buildBlocks_deterministic_witness :
    buildBlocks fmtDemo "A" "u" [] 7 0 = buildBlocks fmtDemo "A" "u" [] 7 0 :=
  buildBlocks_deterministic fmtDemo fmtDemo "A" "A" "u" "u" [] [] 7 7 0 0
    rfl rfl rfl rfl rfl rfl
